import Mathlib

/-!
Smeagle: ABI parameter locations, the Corpus serializers and the type classifier.

A shallow embedding of `src/source/corpora.cpp`:

* `getStringLocationFromType`   the name-pattern based location resolver,
* `getParamLocationOffset`      the raw offset string of a parameter,
* `parseFunctionABILocation`    the pass that appends one fact per parameter,
* `toAsp`, `toYaml`, `toJson`   the three serializers,

and of `src/source/parser/x86_64/types.hpp`:

* `makeJson`                    the recursive classifier with its seen-set,
* `struct_t.toJson` and the other `toJson` methods of the descriptors.

Data handed over by Dyninst (symbols, functions, parameters, types, location
lists) is modelled by plain records holding what the accessors used in the
source return.  `std::cout` is modelled by the sequence of chunks flushed to
it: every output statement of the source ends in `std::endl`, so each
statement contributes exactly one chunk.
-/

namespace Smeagle

/-! ## Strings, regular expressions, formatting -/

/-- Contiguous-substring test on character lists: does `pat` occur somewhere in `s`? -/
def occursIn (pat s : List Char) : Bool :=
  s.tails.any (fun t => pat.isPrefixOf t)

/-- The function `std::regex_search(s, re)` for a pattern `re` that is one group of literal
alternatives, `(a|b|c)`: the search succeeds iff one of the alternatives occurs in `s` as a
contiguous substring.  The pattern is given by its list of alternatives. -/
def regex_search (s : String) (alternatives : List String) : Bool :=
  alternatives.any (fun a => occursIn a.data s.data)

/-- Opening brace, the character that starts a replacement field of `fmt::format`. -/
def lbrace : Char := Char.ofNat 123

/-- Closing brace, the character that ends a replacement field of `fmt::format`. -/
def rbrace : Char := Char.ofNat 125

/-- Scanner of `fmt::format`.  The flag says that the previous character was an unmatched
opening brace.  Only brace-delimited replacement fields consume an argument; every other
character (the percent sign included: `fmt::format` is not `printf`) is copied as it is.
Arguments arrive already rendered; surplus arguments are ignored, as in the library. -/
def vformat : Bool → List Char → List String → List Char
  | _, [], _ => []
  | false, c :: rest, args =>
      if c = lbrace then vformat true rest args else c :: vformat false rest args
  | true, c :: rest, args =>
      if c = lbrace then lbrace :: vformat false rest args
      else if c = rbrace then
        match args with
        | a :: more => a.data ++ vformat false rest more
        | [] => vformat false rest []
      else c :: vformat false rest args

/-- The call `fmt::format(fmtstr, args...)`. -/
def fmt_format (fmtstr : String) (args : List String) : String :=
  String.mk (vformat false fmtstr.data args)

/-- Two's-complement wrap-around of a C++ `int` (32 bits). -/
def wrapInt (x : Int) : Int := (x + 2147483648) % 4294967296 - 2147483648

/-! ## Data supplied by Dyninst -/

/-- A Dyninst `Type`, as far as `corpora.cpp` looks at it: its rendered name. -/
structure DynType where
  getName : String
  deriving DecidableEq, Repr

/-- A Dyninst `MachRegister`: `name()` is all the source asks of it. -/
structure MachRegister where
  name : String
  deriving DecidableEq, Repr

/-- A Dyninst `VariableLocation`: `lowPC` and `hiPC` are unsigned addresses, `frameOffset`
is a signed `long`. -/
structure VariableLocation where
  lowPC : Nat
  hiPC : Nat
  mr_reg : MachRegister
  frameOffset : Int
  deriving DecidableEq, Repr

/-- A Dyninst `localVar` (a function parameter). -/
structure localVar where
  getName : String
  getType : DynType
  getLocationLists : List VariableLocation
  deriving DecidableEq, Repr

/-- A Dyninst `Function`.  `getParams` is `none` when the call `func->getParams(params)`
returns `false`, and `some ps` when it returns `true` after filling `params` with `ps`. -/
structure Function where
  getName : String
  getParams : Option (List localVar)
  deriving DecidableEq, Repr

/-- The enumeration `Symbol::SymbolType`. -/
inductive SymbolType where
  | ST_UNKNOWN | ST_FUNCTION | ST_OBJECT | ST_MODULE | ST_SECTION | ST_TLS
  | ST_DELETED | ST_INDIRECT | ST_NOTYPE
  deriving DecidableEq, Repr

/-- A Dyninst `Symbol`. -/
structure Symbol where
  getMangledName : String
  getType : SymbolType
  getFunction : Function
  deriving DecidableEq, Repr

/-! ## The Corpus -/

/-- Modelled from the spec: the record `TypeLocation` is declared in `smeagle/corpora.h`,
which is not among the sources; its six string fields are the ones
`parseFunctionABILocation` assigns. -/
structure TypeLocation where
  parent : String
  name : String
  type : String
  exportOrImport : String
  location : String
  locoffset : String
  deriving DecidableEq, Repr

/-- The class `Corpus`: the library name and the vector `typelocs`. -/
structure Corpus where
  library : String
  typelocs : List TypeLocation
  deriving DecidableEq, Repr

/-- The constructor `Corpus::Corpus(library)`: no facts yet. -/
def Corpus.new (library : String) : Corpus := ⟨library, []⟩

/-- The method `Corpus::getStringSymbolType`. -/
def getStringSymbolType (symbol : Symbol) : String :=
  match symbol.getType with
  | .ST_FUNCTION => "function"
  | .ST_UNKNOWN => "unknown"
  | .ST_OBJECT => "object"
  | .ST_SECTION => "section"
  | .ST_MODULE => "module"
  | .ST_TLS => "tls"
  | .ST_DELETED => "deleted"
  | .ST_INDIRECT => "indirect"
  | .ST_NOTYPE => "notype"

/-! ## Location resolver -/

/-- The pattern `std::regex checkinteger("(int|char|short|long|pointer|bool)")`. -/
def checkinteger : List String := ["int", "char", "short", "long", "pointer", "bool"]

/-- The pattern `std::regex checkconstant("(const)")`. -/
def checkconstant : List String := ["const"]

/-- The pattern `std::regex checksse("(double|decimal|float|Decimal|m64)")`. -/
def checksse : List String := ["double", "decimal", "float", "Decimal", "m64"]

/-- The method `Corpus::getStringLocationFromType(paramType, order)`. -/
def getStringLocationFromType (paramType : DynType) (order : Int) : String :=
  let paramTypeString := paramType.getName
  let isinteger := regex_search paramTypeString checkinteger
  let isconst := regex_search paramTypeString checkconstant
  let issse := regex_search paramTypeString checksse
  let loc := paramTypeString
  if isconst then "stack"
  else if issse then fmt_format "xmm%s" [toString (wrapInt (order - 1))]
  else if isinteger then
    if order = 1 then "%rdi"
    else if order = 2 then "%rsi"
    else if order = 3 then "%rdx"
    else if order = 4 then "%rcx"
    else if order = 5 then "%r8"
    else if order = 6 then "%r9"
    else if order = 7 then "%r10"
    else if order = 8 then "%r11"
    else if order = 9 then "%r12"
    else if order = 10 then "%r13"
    else if order = 11 then "%r14"
    else if order = 12 then "%r15"
    else "memory"
  else loc

/-- The ordered integer-class register list of the specification (12 entries). -/
def integerRegisters : List String :=
  ["%rdi", "%rsi", "%rdx", "%rcx", "%r8", "%r9", "%r10", "%r11", "%r12", "%r13", "%r14", "%r15"]

/-! ## Raw offset string -/

/-- Insertion of an unsigned integer into a stream in `std::hex` mode: lower-case
hexadecimal digits, no prefix. -/
def hexString (n : Nat) : String := String.mk (Nat.toDigits 16 n)

/-- Insertion of a signed `long` into a stream in `std::dec` mode. -/
def decString (i : Int) : String := toString i

/-- The loop of `Corpus::getParamLocationOffset` over the location list: its body ends in
`break`, so the first entry is written to `result` and no other entry is visited. -/
def getParamLocationOffsetLoop : List VariableLocation → String → String
  | [], result => result
  | current :: _, result =>
      result ++ hexString current.lowPC ++ " to " ++ hexString current.hiPC
        ++ " " ++ current.mr_reg.name ++ " " ++ decString current.frameOffset

/-- The method `Corpus::getParamLocationOffset(param)`. -/
def getParamLocationOffset (param : localVar) : String :=
  let locs := param.getLocationLists
  getParamLocationOffsetLoop locs ""

/-! ## The classification and resolution pass -/

/-- The body of the loop of `Corpus::parseFunctionABILocation` for one parameter: the new
`TypeLocation`. -/
def makeTypeLocation (fname : String) (param : localVar) (order : Int) : TypeLocation :=
  let paramName := param.getName
  let paramType := param.getType
  let loc := getStringLocationFromType paramType order
  let locoffset := getParamLocationOffset param
  { name := paramName
    parent := fname
    type := paramType.getName
    exportOrImport := "export"
    location := loc
    locoffset := locoffset }

/-- The loop of `Corpus::parseFunctionABILocation`: `typelocs.push_back(typeloc)` and
`order += 1` (on a 32-bit `int`) for each parameter in turn. -/
def parseParamsLoop (fname : String) : List localVar → Int → List TypeLocation → List TypeLocation
  | [], _, typelocs => typelocs
  | param :: rest, order, typelocs =>
      parseParamsLoop fname rest (wrapInt (order + 1))
        (typelocs ++ [makeTypeLocation fname param order])

/-- The method `Corpus::parseFunctionABILocation(symbol)`. -/
def parseFunctionABILocation (self : Corpus) (symbol : Symbol) : Corpus :=
  let _sname := symbol.getMangledName
  let _stype := getStringSymbolType symbol
  let func := symbol.getFunction
  let fname := func.getName
  match func.getParams with
  | some params => { self with typelocs := parseParamsLoop fname params 1 self.typelocs }
  | none => self

/-- Modelled from the spec: the driver that hands the function symbols to the pass is not
among the sources; the specification has the engine process the symbols one after the
other, each call appending to the same Corpus. -/
def parseSymbols (self : Corpus) (symbols : List Symbol) : Corpus :=
  symbols.foldl parseFunctionABILocation self

/-- The parameters a function symbol reports: the vector `params` after the call
`func->getParams(params)`, which stays empty when the call fails. -/
def paramsOf (symbol : Symbol) : List localVar :=
  match symbol.getFunction.getParams with
  | some params => params
  | none => []

/-- Number of parameters a function symbol reports. -/
def paramCount (symbol : Symbol) : Nat := (paramsOf symbol).length

/-! ## Serializers

A serializer is a method of a mutable `Corpus` writing to `std::cout`; it is modelled as a
function from the Corpus and the chunks already flushed to the Corpus afterwards and the
chunks flushed afterwards. -/

/-- The chunk `toAsp` writes first. -/
def aspHeader (library : String) : String := "corpus(" ++ library ++ ")," ++ "\n"

/-- The chunk `toAsp` writes for one fact. -/
def aspRecord (library : String) (typeloc : TypeLocation) : String :=
  "abi_typelocation(" ++ library ++ ", " ++ typeloc.parent
    ++ ", " ++ typeloc.name ++ ", " ++ typeloc.type ++ ", \""
    ++ typeloc.locoffset ++ "\")" ++ "\n"

/-- The loop of `Corpus::toAsp`. -/
def toAspLoop (library : String) : List TypeLocation → List String → List String
  | [], cout => cout
  | typeloc :: rest, cout => toAspLoop library rest (cout ++ [aspRecord library typeloc])

/-- The method `Corpus::toAsp()`. -/
def toAsp (self : Corpus) (cout : List String) : Corpus × List String :=
  (self, toAspLoop self.library self.typelocs (cout ++ [aspHeader self.library]))

/-- The chunk `toYaml` writes first. -/
def yamlHeader (library : String) : String :=
  "library: \"" ++ library ++ "\"\nlocations: " ++ "\n"

/-- The chunk `toYaml` writes for one fact. -/
def yamlRecord (library : String) (typeloc : TypeLocation) : String :=
  " - library: " ++ library ++ "\n   parent: " ++ typeloc.parent
    ++ "\n   name: " ++ typeloc.name ++ "\n   type: " ++ typeloc.type
    ++ "\n   location: " ++ typeloc.locoffset ++ "\n" ++ "\n"

/-- The loop of `Corpus::toYaml`. -/
def toYamlLoop (library : String) : List TypeLocation → List String → List String
  | [], cout => cout
  | typeloc :: rest, cout => toYamlLoop library rest (cout ++ [yamlRecord library typeloc])

/-- The method `Corpus::toYaml()`. -/
def toYaml (self : Corpus) (cout : List String) : Corpus × List String :=
  (self, toYamlLoop self.library self.typelocs (cout ++ [yamlHeader self.library]))

/-- The chunk `toJson` writes first. -/
def jsonHeader (library : String) : String :=
  "\x7b \"library\": \"" ++ library ++ "\", \"locations\": [" ++ "\n"

/-- The object `toJson` writes for one fact, without what follows it. -/
def jsonObject (library : String) (typeloc : TypeLocation) : String :=
  "\x7b\"library\": \"" ++ library ++ "\", \"parent\": \""
    ++ typeloc.parent ++ "\", \"name\": \"" ++ typeloc.name ++ "\", \"type\": \""
    ++ typeloc.type ++ "\", \"location\": \"" ++ typeloc.locoffset ++ "\"\x7d"

/-- The chunk `toJson` writes last. -/
def jsonFooter : String := "]\x7d" ++ "\n"

/-- The loop of `Corpus::toJson` over a vector of `size` facts; `index` is the position of
the fact being visited.  The test `&typeloc == &typelocs.back()` compares addresses of
elements of one vector, so it holds exactly at the last position, whatever the contents. -/
def toJsonLoop (library : String) (size : Nat) :
    Nat → List TypeLocation → List String → List String
  | _, [], cout => cout
  | index, typeloc :: rest, cout =>
      let endcomma := if index + 1 = size then "" else ","
      toJsonLoop library size (index + 1) rest
        (cout ++ [jsonObject library typeloc ++ endcomma ++ "\n"])

/-- The method `Corpus::toJson()`. -/
def toJson (self : Corpus) (cout : List String) : Corpus × List String :=
  (self, toJsonLoop self.library self.typelocs.length 0 self.typelocs
            (cout ++ [jsonHeader self.library]) ++ [jsonFooter])

/-- The text that has reached the terminal: the flushed chunks, one after the other. -/
def rendered (cout : List String) : String := String.join cout

/-! ## Reference renderings of the specification -/

/-- Elements of an array, one per line, as the specification words it: every element except
the last is followed by a comma, the last by none. -/
def commaSeparatedLines : List String → List String
  | [] => []
  | [last] => [last ++ "" ++ "\n"]
  | element :: next :: rest => (element ++ "," ++ "\n") :: commaSeparatedLines (next :: rest)

/-- The rendered record carries the fact: it contains, in this order and character for
character, the parent, the name, the type and the offset string of the fact. -/
def Carries (typeloc : TypeLocation) (record : String) : Prop :=
  ∃ a b c d e : String,
    record = a ++ typeloc.parent ++ b ++ typeloc.name ++ c ++ typeloc.type ++ d
      ++ typeloc.locoffset ++ e

/-- Facts that agree on parent, name, type and offset string. -/
def SameRendered (x y : TypeLocation) : Prop :=
  x.parent = y.parent ∧ x.name = y.name ∧ x.type = y.type ∧ x.locoffset = y.locoffset

/-! ## Type classifier (`parser/x86_64/types.hpp`)

Dyninst types form a graph that may be cyclic (a struct with a pointer to itself).  The
non-pointer types of a binary are the entries of a finite table; a handle `st::Type*` is
either an entry of the table or a pointer type over another handle, and the fields of a
struct hold handles.  A pointer type has a name and a size of its own.
`makeJson` writes to a `std::ostream`; the stream is modelled by the text written so far.
-/

/-- A handle `st::Type*`. -/
inductive StType where
  | entry (id : Nat)
  | pointer (name : String) (size : Nat) (pointee : StType)
  deriving DecidableEq, Repr

/-- A Dyninst `Field` of a struct. -/
structure Field where
  getName : String
  getType : StType
  deriving DecidableEq, Repr

/-- What the structural probes of a Dyninst type answer: `getScalarType`, `getStructType`
(with `getFields`), `getUnionType` (a Dyninst union has fields as well), `getArrayType`,
`getEnumType` (with `getConstants`), `getFunctionType`; `other` is a type for which all
six probes answer null. -/
inductive TypeKind where
  | scalar
  | struct (getFields : List Field)
  | union (getFields : List Field)
  | array
  | enum (getConstants : List (String × Int))
  | function
  | other
  deriving DecidableEq, Repr

/-- A non-pointer type of the binary. -/
structure TypeEntry where
  getName : String
  getSize : Nat
  kind : TypeKind
  deriving DecidableEq, Repr

/-- The entry behind an identifier; an identifier outside the table stands for a type that
answers no probe. -/
def lookup (table : List TypeEntry) (id : Nat) : TypeEntry :=
  table.getD id ⟨"", 0, .other⟩

/-- The accessor `Type::getName`. -/
def StType.getName (table : List TypeEntry) : StType → String
  | .entry id => (lookup table id).getName
  | .pointer name _ _ => name

/-- The accessor `Type::getSize`. -/
def StType.getSize (table : List TypeEntry) : StType → Nat
  | .entry id => (lookup table id).getSize
  | .pointer _ size _ => size

/-- The six structural probes, taken together; a pointer type answers none of them. -/
def StType.kind (table : List TypeEntry) : StType → TypeKind
  | .entry id => (lookup table id).kind
  | .pointer _ _ _ => .other

/-- Modelled from the spec: `unwrap_underlying_type` is not among the sources; it unwraps
pointer indirections, counting levels, to obtain the underlying non-pointer type. -/
def unwrap_underlying_type : StType → StType × Int
  | .entry id => (.entry id, 0)
  | .pointer _ _ pointee =>
      ((unwrap_underlying_type pointee).1, (unwrap_underlying_type pointee).2 + 1)

/-- The aggregate `detail::param`. -/
structure param where
  name_ : String
  type_name_ : String
  class_name_ : String
  direction_ : String
  location_ : String
  size_in_bytes_ : Nat
  deriving DecidableEq, Repr

/-- The string `std::string(indent, ' ')`. -/
def spaces (indent : Nat) : String := String.mk (List.replicate indent ' ')

/-- The function `detail::toJson(p, out, indent)`. -/
def detail.toJson (p : param) (out : String) (indent : Nat) : String :=
  let buf := spaces indent
  out ++ buf ++ "\"name\":\"" ++ p.name_ ++ "\",\n"
    ++ buf ++ "\"type\":\"" ++ p.type_name_ ++ "\",\n"
    ++ buf ++ "\"class\":\"" ++ p.class_name_ ++ "\",\n"
    ++ buf ++ "\"location\":\"" ++ p.location_ ++ "\",\n"
    ++ buf ++ "\"direction\":\"" ++ p.direction_ ++ "\",\n"
    ++ buf ++ "\"size\":\"" ++ toString p.size_in_bytes_ ++ "\""

/-- The method `scalar_t::toJson`. -/
def scalar_t.toJson (self : param) (out : String) (indent : Nat) : String :=
  let buf := spaces indent
  let out := out ++ buf ++ "\x7b\n"
  let out := detail.toJson self out (indent + 2)
  out ++ "\n" ++ buf ++ "\x7d"

/-- The method `union_t::toJson`: the type has no handle on the Dyninst union, and the
method writes the same flat object as `scalar_t::toJson`. -/
def union_t.toJson (self : param) (out : String) (indent : Nat) : String :=
  let buf := spaces indent
  let out := out ++ buf ++ "\x7b\n"
  let out := detail.toJson self out (indent + 2)
  out ++ "\n" ++ buf ++ "\x7d"

/-- The method `array_t::toJson`. -/
def array_t.toJson (self : param) (out : String) (indent : Nat) : String :=
  let buf := spaces indent
  let out := out ++ buf ++ "\x7b\n"
  let out := detail.toJson self out (indent + 2)
  out ++ "\n" ++ buf ++ "\x7d"

/-- The method `function_t::toJson`. -/
def function_t.toJson (self : param) (out : String) (indent : Nat) : String :=
  let buf := spaces indent
  let out := out ++ buf ++ "\x7b\n"
  let out := detail.toJson self out (indent + 2)
  out ++ "\n" ++ buf ++ "\x7d"

/-- The loop of `enum_t::toJson` over the constants; `back` is `constants.back()`, and the
test `c == constants.back()` compares the pairs themselves. -/
def enumConstantsLoop (buf : String) (back : String × Int) :
    List (String × Int) → String → String
  | [], out => out
  | c :: rest, out =>
      let endcomma := if c = back then "" else ","
      enumConstantsLoop buf back rest
        (out ++ buf ++ "    \"" ++ c.1 ++ "\" : \"" ++ toString c.2 ++ "\"" ++ endcomma ++ "\n")

/-- The method `enum_t::toJson`. -/
def enum_t.toJson (self : param) (constants : List (String × Int)) (out : String)
    (indent : Nat) : String :=
  let buf := spaces indent
  let out := out ++ buf ++ "\x7b\n"
  let out := detail.toJson self out (indent + 2)
  let out := out ++ ",\n" ++ buf ++ "  \"constants\": \x7b\n"
  let out := enumConstantsLoop buf (constants.getLastD ("", 0)) constants out
  out ++ buf ++ "\x7d\x7d"

/-- The method `pointer_t::toJson`, with the `toJson` of the underlying descriptor as an
argument.  No call in the sources reaches it. -/
def pointer_t.toJson (self : param) (pointer_indirections : Int)
    (underlying_type_toJson : String → Nat → String) (out : String) (indent : Nat) : String :=
  let buf := spaces indent
  let out := out ++ buf ++ "\x7b\n"
  let out := detail.toJson self out (indent + 2)
  let out := out ++ ",\n" ++ buf ++ "  \"indirections\":\"" ++ toString pointer_indirections ++ "\""
  let out := out ++ ",\n" ++ buf ++ "  \"underlying_type\": "
  let out := underlying_type_toJson out (indent + 4)
  out ++ "\x7d"

/-- What `makeJson` works on besides its arguments: the function-local static set `seen`
(it lives as long as the program) and the text written to `out`. -/
structure JsonState where
  seen : List String
  out : String
  deriving DecidableEq, Repr

/-- How a call ends: it returns a value, it throws `std::runtime_error` with a message, or
the recursion budget of the model is used up. -/
inductive Outcome (α : Type) where
  | returned (value : α)
  | threw (what : String)
  | outOfFuel
  deriving DecidableEq, Repr

/-- The loop of `struct_t::toJson` over `fields`, a vector of `size` fields; `index` is the
position of the field being visited and `makeJsonCall` the recursive call of `makeJson`.
The test `field == fields.back()` compares the pointers held by one vector, so it holds
exactly at the last position. -/
def structFieldsLoop (makeJsonCall : StType → String → Nat → JsonState → Outcome Bool × JsonState)
    (size : Nat) (indent : Nat) : Nat → List Field → JsonState → Outcome Unit × JsonState
  | _, [], st => (.returned (), st)
  | index, field :: rest, st =>
      let endcomma := if index + 1 = size then "" else ","
      match makeJsonCall field.getType field.getName (indent + 3) st with
      | (.returned created, st) =>
          if created then
            structFieldsLoop makeJsonCall size indent (index + 1) rest
              { st with out := st.out ++ endcomma ++ "\n" }
          else structFieldsLoop makeJsonCall size indent (index + 1) rest st
      | (.threw what, st) => (.threw what, st)
      | (.outOfFuel, st) => (.outOfFuel, st)

/-- The method `struct_t::toJson`; `fields` is `*dyninst_obj->getFields()`. -/
def struct_t.toJson (makeJsonCall : StType → String → Nat → JsonState → Outcome Bool × JsonState)
    (self : param) (fields : List Field) (indent : Nat) (st : JsonState) :
    Outcome Unit × JsonState :=
  let buf := spaces indent
  let st := { st with out := st.out ++ buf ++ "\x7b\n" }
  let st := { st with out := detail.toJson self st.out (indent + 2) }
  if fields.length > 0 then
    let buf2 := spaces (indent + 2)
    let st := { st with out := st.out ++ ",\n" ++ buf2 ++ "\"fields\": [\n" }
    match structFieldsLoop makeJsonCall fields.length indent 0 fields st with
    | (.returned _, st) =>
        let st := { st with out := st.out ++ buf2 ++ "]\n" }
        (.returned (), { st with out := st.out ++ buf ++ "\x7d" })
    | (.threw what, st) => (.threw what, st)
    | (.outOfFuel, st) => (.outOfFuel, st)
  else (.returned (), { st with out := st.out ++ buf ++ "\x7d" })

/-- The function `makeJson(param_type, param_name, out, indent)` on the types of `table`.
The first argument bounds the depth of the recursion through struct fields. -/
def makeJson (table : List TypeEntry) :
    Nat → StType → String → Nat → JsonState → Outcome Bool × JsonState
  | 0, _, _, _, st => (.outOfFuel, st)
  | fuel + 1, param_type, param_name, indent, st =>
      let underlying_type := (unwrap_underlying_type param_type).1
      let _ptr_cnt := (unwrap_underlying_type param_type).2
      let direction := ""
      if param_type.getName table ∈ st.seen then (.returned false, st)
      else
        let st := { st with seen := param_type.getName table :: st.seen }
        match underlying_type.kind table with
        | .scalar =>
            let self : param := ⟨param_name, param_type.getName table, "Scalar", direction, "",
              param_type.getSize table⟩
            (.returned true, { st with out := scalar_t.toJson self st.out indent })
        | .struct fields =>
            let self : param := ⟨param_name, param_type.getName table, "Struct", direction, "",
              param_type.getSize table⟩
            match struct_t.toJson (makeJson table fuel) self fields indent st with
            | (.returned _, st) => (.returned true, st)
            | (.threw what, st) => (.threw what, st)
            | (.outOfFuel, st) => (.outOfFuel, st)
        | .union _ =>
            let self : param := ⟨param_name, param_type.getName table, "Union", direction, "",
              param_type.getSize table⟩
            (.returned true, { st with out := union_t.toJson self st.out indent })
        | .array =>
            let self : param := ⟨param_name, param_type.getName table, "Array", direction, "",
              param_type.getSize table⟩
            (.returned true, { st with out := array_t.toJson self st.out indent })
        | .enum constants =>
            let self : param := ⟨param_name, param_type.getName table, "Enum", direction, "",
              param_type.getSize table⟩
            (.returned true, { st with out := enum_t.toJson self constants st.out indent })
        | .function =>
            let self : param := ⟨param_name, param_type.getName table, "Function", direction, "",
              param_type.getSize table⟩
            (.returned true, { st with out := function_t.toJson self st.out indent })
        | .other => (.threw ("Unknown type " ++ param_type.getName table), st)

/-- The state `after` continues the state `before`: every name seen stays seen, and the
text written is only added to. -/
def Continues (before after : JsonState) : Prop :=
  before.seen ⊆ after.seen ∧ ∃ tail : String, after.out = before.out ++ tail

/-- The substring test is list infix-ness. -/
theorem occursIn_iff (pat s : List Char) : occursIn pat s = true ↔ pat <:+: s := by
  unfold occursIn
  rw [List.any_eq_true]
  constructor
  · rintro ⟨t, ht, hp⟩
    rw [List.mem_tails] at ht
    rw [List.isPrefixOf_iff_prefix] at hp
    exact List.infix_iff_prefix_suffix.mpr ⟨t, hp, ht⟩
  · intro h
    obtain ⟨t, hp, ht⟩ := List.infix_iff_prefix_suffix.mp h
    exact ⟨t, (List.mem_tails t s).mpr ht, List.isPrefixOf_iff_prefix.mpr hp⟩

/-- No wrap-around below the largest `int`. -/
theorem wrapInt_succ (k : Nat) (hk : k + 1 < 2147483648) :
    wrapInt ((k : Int) + 1) = ((k + 1 : Nat) : Int) := by
  unfold wrapInt
  omega

/-- The loop of the pass, as long as `order` does not overflow: the facts already recorded,
followed by one fact per parameter, the parameter at offset `i` getting position `k + i`. -/
theorem parseParamsLoop_eq (fname : String) (params : List localVar) :
    ∀ (k : Nat) (acc : List TypeLocation), k + params.length < 2147483648 →
      parseParamsLoop fname params (k : Int) acc
        = acc ++ (params.enumFrom k).map
            (fun ip => makeTypeLocation fname ip.2 (ip.1 : Int)) := by
  induction params with
  | nil => intro k acc _; simp [parseParamsLoop]
  | cons param rest ih =>
    intro k acc hk
    simp only [List.length_cons] at hk
    rw [parseParamsLoop, wrapInt_succ k (by omega), ih (k + 1) _ (by omega)]
    simp [List.enumFrom_cons]

/-- The loop of the pass, whatever the starting position: it only appends, one fact per
parameter, in order, each built by `makeTypeLocation` from its parameter. -/
theorem parseParamsLoop_append (fname : String) (params : List localVar) :
    ∀ (order : Int) (acc : List TypeLocation),
      ∃ new : List TypeLocation,
        parseParamsLoop fname params order acc = acc ++ new
        ∧ List.Forall₂ (fun p t => ∃ o : Int, t = makeTypeLocation fname p o) params new := by
  induction params with
  | nil => intro order acc; exact ⟨[], by simp [parseParamsLoop], List.Forall₂.nil⟩
  | cons param rest ih =>
    intro order acc
    obtain ⟨new, hnew, hall⟩ := ih (wrapInt (order + 1)) (acc ++ [makeTypeLocation fname param order])
    refine ⟨makeTypeLocation fname param order :: new, ?_, List.Forall₂.cons ⟨order, rfl⟩ hall⟩
    rw [parseParamsLoop, hnew]
    simp

/-- One call of the pass only appends to the facts and keeps the library name. -/
theorem parseFunctionABILocation_append (self : Corpus) (symbol : Symbol) :
    ∃ new : List TypeLocation,
      (parseFunctionABILocation self symbol).typelocs = self.typelocs ++ new
      ∧ (parseFunctionABILocation self symbol).library = self.library
      ∧ List.Forall₂ (fun p t => ∃ o : Int, t = makeTypeLocation symbol.getFunction.getName p o)
          (paramsOf symbol) new := by
  unfold parseFunctionABILocation paramsOf
  cases h : symbol.getFunction.getParams with
  | none => exact ⟨[], by simp [h], by simp [h], List.Forall₂.nil⟩
  | some params =>
    obtain ⟨new, hnew, hall⟩ :=
      parseParamsLoop_append symbol.getFunction.getName params 1 self.typelocs
    exact ⟨new, by simpa [h] using hnew, by simp [h], hall⟩

/-- A sequence of calls of the pass only appends, as many facts as there are parameters. -/
theorem parseSymbols_append (symbols : List Symbol) :
    ∀ self : Corpus, ∃ added : List TypeLocation,
      (parseSymbols self symbols).typelocs = self.typelocs ++ added
      ∧ added.length = (symbols.map paramCount).sum := by
  induction symbols with
  | nil => intro self; exact ⟨[], by simp [parseSymbols], by simp⟩
  | cons symbol rest ih =>
    intro self
    obtain ⟨new, hnew, -, hall⟩ := parseFunctionABILocation_append self symbol
    obtain ⟨added, hadded, hlen⟩ := ih (parseFunctionABILocation self symbol)
    refine ⟨new ++ added, ?_, ?_⟩
    · have : parseSymbols self (symbol :: rest)
          = parseSymbols (parseFunctionABILocation self symbol) rest := by
        simp [parseSymbols]
      rw [this, hadded, hnew, List.append_assoc]
    · simp [hlen, paramCount, hall.length_eq]

/-- The text of a chunk followed by more chunks. -/
theorem rendered_cons (chunk : String) (cout : List String) :
    rendered (chunk :: cout) = chunk ++ rendered cout := by
  apply String.ext
  simp [rendered]

/-- The text of two runs of chunks. -/
theorem rendered_append (cout more : List String) :
    rendered (cout ++ more) = rendered cout ++ rendered more := by
  apply String.ext
  simp [rendered]

/-- The accumulating loop of `String.intercalate`. -/
theorem intercalate_go (sep : String) (items : List String) :
    ∀ acc : String,
      String.intercalate.go acc sep items = acc ++ rendered (items.map (fun x => sep ++ x)) := by
  induction items with
  | nil => intro acc; simp [String.intercalate.go, rendered, String.join]
  | cons item rest ih =>
    intro acc
    rw [String.intercalate.go, ih, List.map_cons, rendered_cons]
    simp [String.append_assoc]

/-- The text of comma-separated lines: the elements joined by a comma and a line break,
and a final line break when there is an element. -/
theorem rendered_commaSeparatedLines (items : List String) :
    rendered (commaSeparatedLines items)
      = ",\n".intercalate items ++ (if items = [] then "" else "\n") := by
  induction items with
  | nil => simp [commaSeparatedLines, rendered, String.join, String.intercalate]
  | cons item rest ih =>
    cases rest with
    | nil => simp [commaSeparatedLines, rendered_cons, String.intercalate,
        String.intercalate.go, rendered, String.join]
    | cons next rest =>
      rw [commaSeparatedLines, rendered_cons, ih]
      simp only [String.intercalate, intercalate_go, List.map_cons, rendered_cons]
      simp [String.append_assoc]

/-- The loop of `toJson`, started at the position that leaves exactly the facts still to
visit: the chunks already flushed, then the objects as comma-separated lines. -/
theorem toJsonLoop_eq (library : String) (size : Nat) (typelocs : List TypeLocation) :
    ∀ (index : Nat) (cout : List String), index + typelocs.length = size →
      toJsonLoop library size index typelocs cout
        = cout ++ commaSeparatedLines (typelocs.map (jsonObject library)) := by
  induction typelocs with
  | nil => intro index cout _; simp [toJsonLoop, commaSeparatedLines]
  | cons typeloc rest ih =>
    intro index cout hsize
    simp only [List.length_cons] at hsize
    rw [toJsonLoop, ih (index + 1) _ (by omega)]
    cases rest with
    | nil =>
      have : index + 1 = size := by simpa using hsize
      simp [commaSeparatedLines, this]
    | cons next rest =>
      have : ¬ index + 1 = size := by simp only [List.length_cons] at hsize; omega
      simp [commaSeparatedLines, this]

/-- The loop of `toAsp`: one record per fact, in order, after what was flushed before. -/
theorem toAspLoop_eq (library : String) (typelocs : List TypeLocation) :
    ∀ cout : List String,
      toAspLoop library typelocs cout = cout ++ typelocs.map (aspRecord library) := by
  induction typelocs with
  | nil => intro cout; simp [toAspLoop]
  | cons typeloc rest ih => intro cout; rw [toAspLoop, ih]; simp

/-- The loop of `toYaml`: one record per fact, in order, after what was flushed before. -/
theorem toYamlLoop_eq (library : String) (typelocs : List TypeLocation) :
    ∀ cout : List String,
      toYamlLoop library typelocs cout = cout ++ typelocs.map (yamlRecord library) := by
  induction typelocs with
  | nil => intro cout; simp [toYamlLoop]
  | cons typeloc rest ih => intro cout; rw [toYamlLoop, ih]; simp

/-- The output chunks of `toJson`. -/
theorem toJson_chunks (self : Corpus) (cout : List String) :
    (toJson self cout).2
      = cout ++ [jsonHeader self.library]
          ++ commaSeparatedLines (self.typelocs.map (jsonObject self.library))
          ++ [jsonFooter] := by
  simp only [toJson]
  rw [toJsonLoop_eq self.library self.typelocs.length self.typelocs 0 _ (by simp)]

/-- A record of `toAsp` carries its fact. -/
theorem aspRecord_carries (library : String) (typeloc : TypeLocation) :
    Carries typeloc (aspRecord library typeloc) :=
  ⟨"abi_typelocation(" ++ library ++ ", ", ", ", ", ", ", \"", "\")" ++ "\n", by
    simp [aspRecord, String.append_assoc]⟩

/-- A record of `toYaml` carries its fact. -/
theorem yamlRecord_carries (library : String) (typeloc : TypeLocation) :
    Carries typeloc (yamlRecord library typeloc) :=
  ⟨" - library: " ++ library ++ "\n   parent: ", "\n   name: ", "\n   type: ",
    "\n   location: ", "\n" ++ "\n", by simp [yamlRecord, String.append_assoc]⟩

/-- An object of `toJson`, followed by anything, carries its fact. -/
theorem jsonObject_carries (library : String) (typeloc : TypeLocation) (tail : String) :
    Carries typeloc (jsonObject library typeloc ++ tail) :=
  ⟨"\x7b\"library\": \"" ++ library ++ "\", \"parent\": \"", "\", \"name\": \"",
    "\", \"type\": \"", "\", \"location\": \"", "\"\x7d" ++ tail, by
    simp [jsonObject, String.append_assoc]⟩

/-- Records obtained from the facts one by one carry them, in order. -/
theorem carries_map (render : TypeLocation → String)
    (hrender : ∀ typeloc, Carries typeloc (render typeloc)) (typelocs : List TypeLocation) :
    List.Forall₂ Carries typelocs (typelocs.map render) := by
  induction typelocs with
  | nil => exact List.Forall₂.nil
  | cons typeloc rest ih => exact List.Forall₂.cons (hrender typeloc) ih

/-- The comma-separated lines of `toJson` carry the facts, in order. -/
theorem carries_commaSeparatedLines (library : String) (typelocs : List TypeLocation) :
    List.Forall₂ Carries typelocs
      (commaSeparatedLines (typelocs.map (jsonObject library))) := by
  induction typelocs with
  | nil => exact List.Forall₂.nil
  | cons typeloc rest ih =>
    cases rest with
    | nil =>
      simp only [List.map_cons, List.map_nil, commaSeparatedLines]
      refine List.Forall₂.cons ?_ List.Forall₂.nil
      rw [String.append_assoc]
      exact jsonObject_carries library typeloc _
    | cons next rest =>
      simp only [List.map_cons, commaSeparatedLines]
      refine List.Forall₂.cons ?_ (by simpa using ih)
      rw [String.append_assoc]
      exact jsonObject_carries library typeloc _

/-- The output chunks of `toAsp`. -/
theorem toAsp_chunks (self : Corpus) (cout : List String) :
    (toAsp self cout).2
      = cout ++ aspHeader self.library :: self.typelocs.map (aspRecord self.library) := by
  simp [toAsp, toAspLoop_eq]

/-- The output chunks of `toYaml`. -/
theorem toYaml_chunks (self : Corpus) (cout : List String) :
    (toYaml self cout).2
      = cout ++ yamlHeader self.library :: self.typelocs.map (yamlRecord self.library) := by
  simp [toYaml, toYamlLoop_eq]

/-- A rendering that looks at the four rendered fields only gives equal records on facts
that agree on them pairwise. -/
theorem map_eq_of_sameRendered (render : TypeLocation → String)
    (hrender : ∀ x y, SameRendered x y → render x = render y)
    (xs ys : List TypeLocation) (h : List.Forall₂ SameRendered xs ys) :
    xs.map render = ys.map render := by
  induction h with
  | nil => rfl
  | cons hxy _ ih => simp [hrender _ _ hxy, ih]

/-! ## Location resolver: theorems -/

/-- C1: a type name matching the integer pattern and neither the const nor the floating
pattern is resolved, at position `p` with `1 ≤ p ≤ 12`, to the `p`-th entry of the
integer register list, and to "memory" at every position beyond 12; among the positions
1 to 13 only the 13th is "memory". -/
theorem C1_integer_register_by_position (paramType : DynType)
    (hint : regex_search paramType.getName checkinteger = true)
    (hconst : regex_search paramType.getName checkconstant = false)
    (hsse : regex_search paramType.getName checksse = false) :
    (∀ p : Int, 1 ≤ p → p ≤ 12 →
        integerRegisters[(p - 1).toNat]? = some (getStringLocationFromType paramType p))
    ∧ (∀ p : Int, 12 < p → getStringLocationFromType paramType p = "memory")
    ∧ (∀ p : Int, 1 ≤ p → p ≤ 13 →
        (getStringLocationFromType paramType p = "memory" ↔ p = 13)) := by
  refine ⟨?_, ?_, ?_⟩
  · intro p h1 h12
    simp only [getStringLocationFromType, hint, hconst, hsse, Bool.false_eq_true, if_false,
      if_true]
    interval_cases p <;> decide
  · intro p hp
    simp only [getStringLocationFromType, hint, hconst, hsse]
    have h : ∀ k : Int, k ≤ 12 → ¬ p = k := fun k hk => by omega
    simp [h]
  · intro p h1 h13
    simp only [getStringLocationFromType, hint, hconst, hsse, Bool.false_eq_true, if_false,
      if_true]
    interval_cases p <;> decide

/-- C1 at the type name "int": position 3 is the third register, position 13 is "memory". -/
theorem C1_integer_register_by_position_witness :
    (regex_search "int" checkinteger = true ∧ regex_search "int" checkconstant = false
      ∧ regex_search "int" checksse = false)
    ∧ integerRegisters[2]? = some (getStringLocationFromType ⟨"int"⟩ 3)
    ∧ getStringLocationFromType ⟨"int"⟩ 13 = "memory" :=
  have h := C1_integer_register_by_position ⟨"int"⟩ (by decide) (by decide) (by decide)
  ⟨by decide, h.1 3 (by decide) (by decide), h.2.1 13 (by decide)⟩

/-- C2: at the floating-point type "double" the resolver returns, at every position, the
format string itself, "xmm%s": the call to `fmt::format` has no replacement field, so the
position is never rendered.  At position 1 the result is not "xmm0", and for "float" at
position 3 it is not "xmm2". -/
theorem C2_sse_location_is_format_string :
    (∀ order : Int, getStringLocationFromType ⟨"double"⟩ order = "xmm%s")
    ∧ getStringLocationFromType ⟨"double"⟩ 1 ≠ "xmm0"
    ∧ getStringLocationFromType ⟨"float"⟩ 3 = "xmm%s"
    ∧ getStringLocationFromType ⟨"float"⟩ 3 ≠ "xmm2" := by
  refine ⟨?_, by decide, by decide, by decide⟩
  intro order
  have hconst : regex_search "double" checkconstant = false := by decide
  have hsse : regex_search "double" checksse = true := by decide
  simp only [getStringLocationFromType, hconst, hsse, Bool.false_eq_true, if_false, if_true]
  rfl

/-- C3: a type name containing "const" is resolved to "stack" at every position, whatever
the floating and integer tests say. -/
theorem C3_const_is_stack (paramType : DynType) (order : Int)
    (hconst : regex_search paramType.getName checkconstant = true) :
    getStringLocationFromType paramType order = "stack" := by
  simp only [getStringLocationFromType, hconst, if_true]

/-- C3 at `const double`, position 1: the const pattern matches, the floating pattern
matches as well, and the result is "stack". -/
theorem C3_const_is_stack_witness :
    regex_search "const double" checkconstant = true
    ∧ regex_search "const double" checksse = true
    ∧ getStringLocationFromType ⟨"const double"⟩ 1 = "stack" :=
  ⟨by decide, by decide, C3_const_is_stack ⟨"const double"⟩ 1 (by decide)⟩

/-- C4: a type name matching none of the three patterns is returned as it is, at every
position. -/
theorem C4_unclassified_returns_type_name (paramType : DynType) (order : Int)
    (hint : regex_search paramType.getName checkinteger = false)
    (hconst : regex_search paramType.getName checkconstant = false)
    (hsse : regex_search paramType.getName checksse = false) :
    getStringLocationFromType paramType order = paramType.getName := by
  simp [getStringLocationFromType, hint, hconst, hsse]

/-- C4 at the struct name "Foo", position 2: no pattern matches, the result is "Foo". -/
theorem C4_unclassified_returns_type_name_witness :
    (regex_search "Foo" checkinteger = false ∧ regex_search "Foo" checkconstant = false
      ∧ regex_search "Foo" checksse = false)
    ∧ getStringLocationFromType ⟨"Foo"⟩ 2 = "Foo" :=
  ⟨by decide,
    C4_unclassified_returns_type_name ⟨"Foo"⟩ 2 (by decide) (by decide) (by decide)⟩

/-! ## The pass: theorems -/

/-- C5: for a function reporting the parameters `params` (fewer than the largest `int`),
the pass appends, for the parameter at 1-based position `i`, the fact with parent the
function name, name the parameter name, type the parameter's type name, exportOrImport
"export", location `getStringLocationFromType` of the type at `i`, and locoffset
`getParamLocationOffset` of the parameter. -/
theorem C5_fact_of_each_parameter (self : Corpus) (symbol : Symbol) (params : List localVar)
    (hparams : symbol.getFunction.getParams = some params)
    (hlen : params.length < 2147483647) :
    (parseFunctionABILocation self symbol).typelocs
      = self.typelocs ++ (params.enumFrom 1).map (fun ip =>
          { parent := symbol.getFunction.getName
            name := ip.2.getName
            type := ip.2.getType.getName
            exportOrImport := "export"
            location := getStringLocationFromType ip.2.getType (ip.1 : Int)
            locoffset := getParamLocationOffset ip.2 }) := by
  have h := parseParamsLoop_eq symbol.getFunction.getName params 1 self.typelocs (by omega)
  simp only [parseFunctionABILocation, hparams]
  exact h

/-- C5 at `int add(int a, int b)` in an empty Corpus: the facts are
(add, a, int, %rdi) and (add, b, int, %rsi). -/
theorem C5_fact_of_each_parameter_witness :
    (parseFunctionABILocation (Corpus.new "libmath.so")
        ⟨"add", .ST_FUNCTION, ⟨"add", some [⟨"a", ⟨"int"⟩, []⟩, ⟨"b", ⟨"int"⟩, []⟩]⟩⟩).typelocs
      = [⟨"add", "a", "int", "export", "%rdi", ""⟩, ⟨"add", "b", "int", "export", "%rsi", ""⟩] :=
  (C5_fact_of_each_parameter (Corpus.new "libmath.so")
      ⟨"add", .ST_FUNCTION, ⟨"add", some [⟨"a", ⟨"int"⟩, []⟩, ⟨"b", ⟨"int"⟩, []⟩]⟩⟩
      [⟨"a", ⟨"int"⟩, []⟩, ⟨"b", ⟨"int"⟩, []⟩] rfl (by decide)).trans (by decide)

/-- C6: processing a function symbol keeps the library name and the facts already recorded,
in place, and appends exactly one fact per parameter, in declaration order (the fact of a
parameter carries its name, its type name and its offset string, and the function name),
equal parameters included; after processing a sequence of symbols the facts added number
the sum of the parameter counts, which from an empty Corpus is the number of all facts. -/
theorem C6_pass_appends_one_fact_per_parameter (self : Corpus) (symbol : Symbol)
    (library : String) (symbols : List Symbol) :
    (∃ new : List TypeLocation,
        (parseFunctionABILocation self symbol).typelocs = self.typelocs ++ new
        ∧ new.length = paramCount symbol
        ∧ List.Forall₂
            (fun p t => t.parent = symbol.getFunction.getName ∧ t.name = p.getName
              ∧ t.type = p.getType.getName ∧ t.locoffset = getParamLocationOffset p)
            (paramsOf symbol) new)
    ∧ (parseFunctionABILocation self symbol).library = self.library
    ∧ (∃ added : List TypeLocation,
        (parseSymbols self symbols).typelocs = self.typelocs ++ added
        ∧ added.length = (symbols.map paramCount).sum)
    ∧ (parseSymbols (Corpus.new library) symbols).typelocs.length
        = (symbols.map paramCount).sum := by
  obtain ⟨new, hnew, hlib, hall⟩ := parseFunctionABILocation_append self symbol
  refine ⟨⟨new, hnew, ?_, ?_⟩, hlib, parseSymbols_append symbols self, ?_⟩
  · simp [paramCount, hall.length_eq]
  · refine hall.imp ?_
    rintro p t ⟨o, rfl⟩
    simp [makeTypeLocation]
  · obtain ⟨added, hadded, hlen⟩ := parseSymbols_append symbols (Corpus.new library)
    rw [hadded, ← hlen]
    simp [Corpus.new]

/-- C7: the offset string of a parameter without location entries is empty; with entries
it is `<low-pc> to <high-pc> <register-name> <frame-offset>` of the first entry, single
spaces between, the program counters in hexadecimal and the frame offset in decimal, and
the entries after the first do not matter. -/
theorem C7_offset_string_of_first_entry (name : String) (type : DynType)
    (first : VariableLocation) (rest other : List VariableLocation) :
    getParamLocationOffset ⟨name, type, []⟩ = ""
    ∧ getParamLocationOffset ⟨name, type, first :: rest⟩
        = hexString first.lowPC ++ " to " ++ hexString first.hiPC ++ " "
            ++ first.mr_reg.name ++ " " ++ decString first.frameOffset
    ∧ getParamLocationOffset ⟨name, type, first :: rest⟩
        = getParamLocationOffset ⟨name, type, first :: other⟩
    ∧ hexString 255 = "ff"
    ∧ decString (-20) = "-20"
    ∧ getParamLocationOffset
        ⟨"a", ⟨"int"⟩, [⟨16, 255, ⟨"rbp"⟩, -20⟩, ⟨4096, 8192, ⟨"rsp"⟩, 8⟩]⟩
        = "10 to ff rbp -20" := by
  refine ⟨rfl, ?_, rfl, by decide, by decide, by decide⟩
  simp [getParamLocationOffset, getParamLocationOffsetLoop]

/-! ## Serializers: theorems -/

/-- C8: `toJson` leaves what was flushed before, then flushes the header, one object per
fact in order, every object except the last followed by a comma and the last by none, and
the footer; as text, the objects of the "locations" array are joined by a comma and a line
break, with no comma after the last and none missing, for every Corpus. -/
theorem C8_json_array_commas (self : Corpus) (cout : List String) (fact : TypeLocation) :
    (toJson self cout).2
      = cout ++ [jsonHeader self.library]
          ++ commaSeparatedLines (self.typelocs.map (jsonObject self.library))
          ++ [jsonFooter]
    ∧ rendered (toJson self []).2
      = jsonHeader self.library
          ++ ",\n".intercalate (self.typelocs.map (jsonObject self.library))
          ++ (if self.typelocs = [] then "" else "\n")
          ++ jsonFooter
    ∧ (toJson ⟨self.library, []⟩ []).2 = [jsonHeader self.library, jsonFooter]
    ∧ (toJson ⟨self.library, [fact]⟩ []).2
      = [jsonHeader self.library, jsonObject self.library fact ++ "\n", jsonFooter]
    ∧ (toJson ⟨self.library, [fact, fact]⟩ []).2
      = [jsonHeader self.library, jsonObject self.library fact ++ ",\n",
          jsonObject self.library fact ++ "\n", jsonFooter] := by
  have hchunks := toJson_chunks
  refine ⟨hchunks self cout, ?_, ?_, ?_, ?_⟩
  · rw [hchunks self []]
    simp only [List.nil_append, List.singleton_append, rendered_cons, rendered_append,
      rendered_commaSeparatedLines]
    simp [rendered, String.join, String.append_assoc]
  · rw [hchunks]; simp [commaSeparatedLines]
  · rw [hchunks]; simp [commaSeparatedLines]
  · rw [hchunks]; simp [commaSeparatedLines, String.append_assoc]

/-- C9: `toAsp` flushes, after what was flushed before, the library declaration
`corpus(<library>),` and then, for each fact in order, one relation
`abi_typelocation(<library>, <parent>, <name>, <type>, "<locoffset>")`; for a Corpus with
`k` facts that is `k + 1` statements. -/
theorem C9_asp_statements (self : Corpus) (cout : List String) :
    (toAsp self cout).2
      = cout ++ ("corpus(" ++ self.library ++ "),\n")
          :: self.typelocs.map (fun typeloc =>
              "abi_typelocation(" ++ self.library ++ ", " ++ typeloc.parent ++ ", "
                ++ typeloc.name ++ ", " ++ typeloc.type ++ ", \"" ++ typeloc.locoffset
                ++ "\")\n")
    ∧ (toAsp self []).2.length = self.typelocs.length + 1 := by
  have h : (toAsp self cout).2
      = cout ++ aspHeader self.library :: self.typelocs.map (aspRecord self.library) := by
    simp [toAsp, toAspLoop_eq]
  constructor
  · rw [h]
    congr 2
    · simp [aspHeader, String.append_assoc]
    · congr 1
      funext typeloc
      simp [aspRecord, String.append_assoc]
  · simp [toAsp, toAspLoop_eq]

/-- C10: each of `toAsp`, `toYaml` and `toJson` flushes, between its header (and footer),
exactly one record per fact, in insertion order, and the record of a fact contains the
fact's parent, name, type and offset string character for character. -/
theorem C10_records_in_order_verbatim (self : Corpus) (cout : List String) :
    (∃ records : List String,
        (toAsp self cout).2 = cout ++ aspHeader self.library :: records
        ∧ List.Forall₂ Carries self.typelocs records)
    ∧ (∃ records : List String,
        (toYaml self cout).2 = cout ++ yamlHeader self.library :: records
        ∧ List.Forall₂ Carries self.typelocs records)
    ∧ (∃ records : List String,
        (toJson self cout).2 = cout ++ jsonHeader self.library :: records ++ [jsonFooter]
        ∧ List.Forall₂ Carries self.typelocs records) := by
  refine ⟨⟨_, ?_, carries_map _ (aspRecord_carries self.library) _⟩,
    ⟨_, ?_, carries_map _ (yamlRecord_carries self.library) _⟩,
    ⟨_, ?_, carries_commaSeparatedLines self.library _⟩⟩
  · simp [toAsp, toAspLoop_eq]
  · simp [toYaml, toYamlLoop_eq]
  · rw [toJson_chunks]; simp

/-- C11: each of `toAsp`, `toYaml` and `toJson` returns the Corpus it was given (library
name and facts unchanged), and what it appends to the stream does not depend on what was
flushed before: a second call on the Corpus left by the first appends the same chunks,
so the same text. -/
theorem C11_serializers_keep_corpus_and_repeat (self : Corpus) (cout again : List String) :
    ((toAsp self cout).1 = self
      ∧ ∃ chunks : List String, (toAsp self cout).2 = cout ++ chunks
          ∧ (toAsp (toAsp self cout).1 again).2 = again ++ chunks)
    ∧ ((toYaml self cout).1 = self
      ∧ ∃ chunks : List String, (toYaml self cout).2 = cout ++ chunks
          ∧ (toYaml (toYaml self cout).1 again).2 = again ++ chunks)
    ∧ ((toJson self cout).1 = self
      ∧ ∃ chunks : List String, (toJson self cout).2 = cout ++ chunks
          ∧ (toJson (toJson self cout).1 again).2 = again ++ chunks)
    ∧ rendered (toAsp (toAsp self []).1 []).2 = rendered (toAsp self []).2
    ∧ rendered (toYaml (toYaml self []).1 []).2 = rendered (toYaml self []).2
    ∧ rendered (toJson (toJson self []).1 []).2 = rendered (toJson self []).2 := by
  refine ⟨⟨rfl, _, toAsp_chunks self cout, toAsp_chunks self again⟩,
    ⟨rfl, _, toYaml_chunks self cout, toYaml_chunks self again⟩,
    ⟨rfl, ?_⟩, rfl, rfl, rfl⟩
  refine ⟨[jsonHeader self.library]
      ++ commaSeparatedLines (self.typelocs.map (jsonObject self.library))
      ++ [jsonFooter], ?_, ?_⟩
  · rw [toJson_chunks]; simp
  · show (toJson self again).2 = _
    rw [toJson_chunks]; simp

/-- C20: two Corpora with the same library name whose facts agree pairwise on parent, name,
type and offset string get the same output from `toAsp`, from `toYaml` and from `toJson`,
whatever their `location` and `exportOrImport` fields hold. -/
theorem C20_output_ignores_location (a b : Corpus) (cout : List String)
    (hlibrary : a.library = b.library)
    (hfacts : List.Forall₂ SameRendered a.typelocs b.typelocs) :
    (toAsp a cout).2 = (toAsp b cout).2
    ∧ (toYaml a cout).2 = (toYaml b cout).2
    ∧ (toJson a cout).2 = (toJson b cout).2 := by
  have hasp := map_eq_of_sameRendered (aspRecord b.library)
    (by rintro x y ⟨h1, h2, h3, h4⟩; simp [aspRecord, h1, h2, h3, h4]) _ _ hfacts
  have hyaml := map_eq_of_sameRendered (yamlRecord b.library)
    (by rintro x y ⟨h1, h2, h3, h4⟩; simp [yamlRecord, h1, h2, h3, h4]) _ _ hfacts
  have hjson := map_eq_of_sameRendered (jsonObject b.library)
    (by rintro x y ⟨h1, h2, h3, h4⟩; simp [jsonObject, h1, h2, h3, h4]) _ _ hfacts
  refine ⟨?_, ?_, ?_⟩
  · rw [toAsp_chunks, toAsp_chunks, hlibrary, hasp]
  · rw [toYaml_chunks, toYaml_chunks, hlibrary, hyaml]
  · rw [toJson_chunks, toJson_chunks, hlibrary, hjson]

/-- C20 at one fact of `add`, resolved to `%rdi` in one Corpus and to `stack` (and marked
"import") in the other: the three outputs coincide, and the JSON text prints the offset
string under the "location" label. -/
theorem C20_output_ignores_location_witness :
    ((toAsp ⟨"libmath.so", [⟨"add", "a", "int", "export", "%rdi", "10 to ff rbp -20"⟩]⟩ []).2
      = (toAsp ⟨"libmath.so", [⟨"add", "a", "int", "import", "stack", "10 to ff rbp -20"⟩]⟩
          []).2
    ∧ (toYaml ⟨"libmath.so", [⟨"add", "a", "int", "export", "%rdi", "10 to ff rbp -20"⟩]⟩ []).2
      = (toYaml ⟨"libmath.so", [⟨"add", "a", "int", "import", "stack", "10 to ff rbp -20"⟩]⟩
          []).2
    ∧ (toJson ⟨"libmath.so", [⟨"add", "a", "int", "export", "%rdi", "10 to ff rbp -20"⟩]⟩ []).2
      = (toJson ⟨"libmath.so", [⟨"add", "a", "int", "import", "stack", "10 to ff rbp -20"⟩]⟩
          []).2)
    ∧ rendered
        (toJson ⟨"libmath.so", [⟨"add", "a", "int", "export", "%rdi", "10 to ff rbp -20"⟩]⟩
          []).2
      = "\x7b \"library\": \"libmath.so\", \"locations\": [\n\x7b\"library\": \"libmath.so\", \"parent\": \"add\", \"name\": \"a\", \"type\": \"int\", \"location\": \"10 to ff rbp -20\"\x7d\n]\x7d\n" :=
  ⟨C20_output_ignores_location
      ⟨"libmath.so", [⟨"add", "a", "int", "export", "%rdi", "10 to ff rbp -20"⟩]⟩
      ⟨"libmath.so", [⟨"add", "a", "int", "import", "stack", "10 to ff rbp -20"⟩]⟩ [] rfl
      (List.Forall₂.cons ⟨rfl, rfl, rfl, rfl⟩ List.Forall₂.nil),
    by decide⟩


/-! ## Type classifier: lemmas -/

/-- Continuation is reflexive. -/
theorem Continues.refl (st : JsonState) : Continues st st :=
  ⟨fun _ h => h, "", by simp⟩

/-- Continuation is transitive. -/
theorem Continues.trans {a b c : JsonState} (hab : Continues a b) (hbc : Continues b c) :
    Continues a c := by
  obtain ⟨h1, t1, e1⟩ := hab
  obtain ⟨h2, t2, e2⟩ := hbc
  exact ⟨fun _ h => h2 (h1 h), t1 ++ t2, by rw [e2, e1, String.append_assoc]⟩

/-- Writing more text continues a state. -/
theorem Continues.write (st : JsonState) (text : String) :
    Continues st { st with out := st.out ++ text } :=
  ⟨fun _ h => h, text, rfl⟩

/-- Writing two more pieces of text continues a state. -/
theorem Continues.write2 (st : JsonState) (text more : String) :
    Continues st { st with out := st.out ++ text ++ more } :=
  ⟨fun _ h => h, text ++ more, by simp [String.append_assoc]⟩

/-- The function `detail::toJson` only adds to the text. -/
theorem detail_toJson_eq (p : param) (out : String) (indent : Nat) :
    detail.toJson p out indent = out ++ detail.toJson p "" indent := by
  simp [detail.toJson, String.append_assoc]

/-- The loop of `enum_t::toJson` only adds to the text. -/
theorem enumConstantsLoop_eq (buf : String) (back : String × Int)
    (constants : List (String × Int)) :
    ∀ out : String, enumConstantsLoop buf back constants out
      = out ++ enumConstantsLoop buf back constants "" := by
  induction constants with
  | nil => intro out; simp [enumConstantsLoop]
  | cons c rest ih =>
    intro out
    rw [enumConstantsLoop, ih, enumConstantsLoop, ih (_ ++ "\n")]
    simp [String.append_assoc]

/-- The loop over the fields continues the state when every recursive call does. -/
theorem structFieldsLoop_continues
    (call : StType → String → Nat → JsonState → Outcome Bool × JsonState)
    (hcall : ∀ t n i st, Continues st (call t n i st).2) (size indent : Nat)
    (fields : List Field) :
    ∀ (index : Nat) (st : JsonState),
      Continues st (structFieldsLoop call size indent index fields st).2 := by
  induction fields with
  | nil => intro index st; exact Continues.refl st
  | cons field rest ih =>
    intro index st
    have h := hcall field.getType field.getName (indent + 3) st
    rw [structFieldsLoop]
    rcases hres : call field.getType field.getName (indent + 3) st with ⟨outcome, st1⟩
    rw [hres] at h
    cases outcome with
    | returned created =>
      cases created with
      | true =>
        simp only [if_true]
        exact h.trans ((Continues.write2 st1 _ _).trans (ih _ _))
      | false =>
        simp only [Bool.false_eq_true, if_false]
        exact h.trans (ih _ _)
    | threw what => exact h
    | outOfFuel => exact h

/-- The method `struct_t::toJson` writes the indentation and an opening brace, and what
follows continues from there, when every recursive call continues its state. -/
theorem struct_toJson_opens
    (call : StType → String → Nat → JsonState → Outcome Bool × JsonState)
    (hcall : ∀ t n i st, Continues st (call t n i st).2) (self : param) (fields : List Field)
    (indent : Nat) (st : JsonState) :
    Continues { st with out := st.out ++ spaces indent ++ "\x7b\n" }
      (struct_t.toJson call self fields indent st).2 := by
  have hopen : ∀ text : String, Continues { st with out := st.out ++ spaces indent ++ "\x7b\n" }
      { st with out := detail.toJson self (st.out ++ spaces indent ++ "\x7b\n") (indent + 2)
                          ++ text } := by
    intro text
    refine ⟨fun _ h => h, detail.toJson self "" (indent + 2) ++ text, ?_⟩
    show detail.toJson self _ _ ++ text = _
    rw [detail_toJson_eq]
    simp [String.append_assoc]
  unfold struct_t.toJson
  by_cases hfields : fields.length > 0
  · simp only [hfields, if_true]
    have hloop := structFieldsLoop_continues call hcall fields.length indent fields 0
      { st with out := detail.toJson self (st.out ++ spaces indent ++ "\x7b\n") (indent + 2)
                          ++ ",\n" ++ spaces (indent + 2) ++ "\"fields\": [\n" }
    have hstart := hopen (",\n" ++ spaces (indent + 2) ++ "\"fields\": [\n")
    simp only [← String.append_assoc] at hstart
    rcases hres : structFieldsLoop call fields.length indent 0 fields
      { st with out := detail.toJson self (st.out ++ spaces indent ++ "\x7b\n") (indent + 2)
                          ++ ",\n" ++ spaces (indent + 2) ++ "\"fields\": [\n" }
      with ⟨outcome, st1⟩
    rw [hres] at hloop
    cases outcome with
    | returned value =>
      refine hstart.trans (hloop.trans
        ⟨fun _ h => h, spaces (indent + 2) ++ "]\n" ++ spaces indent ++ "\x7d", ?_⟩)
      simp [String.append_assoc]
    | threw what => exact hstart.trans hloop
    | outOfFuel => exact hstart.trans hloop
  · simp only [hfields, if_false]
    have h := hopen (spaces indent ++ "\x7d")
    simpa [String.append_assoc] using h

/-- The method `struct_t::toJson` continues the state when every recursive call does. -/
theorem struct_toJson_continues
    (call : StType → String → Nat → JsonState → Outcome Bool × JsonState)
    (hcall : ∀ t n i st, Continues st (call t n i st).2) (self : param) (fields : List Field)
    (indent : Nat) (st : JsonState) :
    Continues st (struct_t.toJson call self fields indent st).2 :=
  (Continues.write2 st _ _).trans (struct_toJson_opens call hcall self fields indent st)

/-- A call of `makeJson` continues the state: no name leaves the seen-set and no text
written is taken back. -/
theorem makeJson_continues (table : List TypeEntry) :
    ∀ (fuel : Nat) (t : StType) (n : String) (i : Nat) (st : JsonState),
      Continues st (makeJson table fuel t n i st).2 := by
  intro fuel
  induction fuel with
  | zero => intro t n i st; exact Continues.refl st
  | succ fuel ih =>
    intro t n i st
    have hseen : Continues st { st with seen := t.getName table :: st.seen } :=
      ⟨fun _ h => List.mem_cons_of_mem _ h, "", by simp⟩
    have hflat : ∀ (self : param) (tail : String),
        Continues st { seen := t.getName table :: st.seen,
                       out := detail.toJson self (st.out ++ spaces i ++ "\x7b\n") (i + 2)
                                ++ tail } := by
      intro self tail
      refine ⟨fun _ h => List.mem_cons_of_mem _ h,
        spaces i ++ "\x7b\n" ++ detail.toJson self "" (i + 2) ++ tail, ?_⟩
      show detail.toJson self _ _ ++ tail = _
      rw [detail_toJson_eq]
      simp [String.append_assoc]
    rw [makeJson]
    by_cases hmem : t.getName table ∈ st.seen
    · simp only [hmem, if_true]
      exact Continues.refl st
    · simp only [hmem, if_false]
      split
      · have h := hflat ⟨n, t.getName table, "Scalar", "", "", t.getSize table⟩
          ("\n" ++ spaces i ++ "\x7d")
        simpa [scalar_t.toJson, String.append_assoc] using h
      · rename_i fields hkind
        have h := struct_toJson_continues (makeJson table fuel) (ih) 
          ⟨n, t.getName table, "Struct", "", "", t.getSize table⟩ fields i
          { st with seen := t.getName table :: st.seen }
        split <;> rename_i heq <;> rw [heq] at h <;> exact hseen.trans h
      · have h := hflat ⟨n, t.getName table, "Union", "", "", t.getSize table⟩
          ("\n" ++ spaces i ++ "\x7d")
        simpa [union_t.toJson, String.append_assoc] using h
      · have h := hflat ⟨n, t.getName table, "Array", "", "", t.getSize table⟩
          ("\n" ++ spaces i ++ "\x7d")
        simpa [array_t.toJson, String.append_assoc] using h
      · rename_i constants hkind
        refine ⟨fun _ h => List.mem_cons_of_mem _ h,
          spaces i ++ "\x7b\n"
            ++ detail.toJson ⟨n, t.getName table, "Enum", "", "", t.getSize table⟩ "" (i + 2)
            ++ ",\n" ++ spaces i ++ "  \"constants\": \x7b\n"
            ++ enumConstantsLoop (spaces i) (constants.getLastD ("", 0)) constants ""
            ++ spaces i ++ "\x7d\x7d", ?_⟩
        simp only [enum_t.toJson]
        rw [enumConstantsLoop_eq, detail_toJson_eq]
        simp [String.append_assoc]
      · have h := hflat ⟨n, t.getName table, "Function", "", "", t.getSize table⟩
          ("\n" ++ spaces i ++ "\x7d")
        simpa [function_t.toJson, String.append_assoc] using h
      · exact hseen

/-- A call of `makeJson` on a type whose name is in the seen-set returns `false` and
changes nothing. -/
theorem makeJson_of_seen (table : List TypeEntry) (fuel : Nat) (t : StType) (n : String)
    (i : Nat) (st : JsonState) (hseen : t.getName table ∈ st.seen) :
    makeJson table (fuel + 1) t n i st = (.returned false, st) := by
  rw [makeJson]
  simp [hseen]

/-- A call of `makeJson` that returns `true` has written a descriptor: text that starts with
the indentation and an opening brace. -/
theorem makeJson_true_writes (table : List TypeEntry) (fuel : Nat) (t : StType) (n : String)
    (i : Nat) (st : JsonState)
    (htrue : (makeJson table fuel t n i st).1 = .returned true) :
    t.getName table ∉ st.seen
    ∧ ∃ tail : String,
        (makeJson table fuel t n i st).2.out = st.out ++ spaces i ++ "\x7b\n" ++ tail := by
  cases fuel with
  | zero => simp [makeJson] at htrue
  | succ fuel =>
    by_cases hmem : t.getName table ∈ st.seen
    · rw [makeJson_of_seen table fuel t n i st hmem] at htrue
      simp at htrue
    · refine ⟨hmem, ?_⟩
      have hflat : ∀ (self : param) (tail : String), ∃ tail2 : String,
          detail.toJson self (st.out ++ spaces i ++ "\x7b\n") (i + 2) ++ tail
            = st.out ++ spaces i ++ "\x7b\n" ++ tail2 := by
        intro self tail
        refine ⟨detail.toJson self "" (i + 2) ++ tail, ?_⟩
        rw [detail_toJson_eq]
        simp [String.append_assoc]
      rw [makeJson] at htrue ⊢
      simp only [hmem, if_false] at htrue ⊢
      split
      · obtain ⟨tail2, h⟩ := hflat ⟨n, t.getName table, "Scalar", "", "", t.getSize table⟩
          ("\n" ++ spaces i ++ "\x7d")
        exact ⟨tail2, by rw [← h]; simp [scalar_t.toJson, String.append_assoc]⟩
      · rename_i fields hkind
        have hcont := struct_toJson_opens (makeJson table fuel) (makeJson_continues table fuel)
          ⟨n, t.getName table, "Struct", "", "", t.getSize table⟩ fields i
          { seen := t.getName table :: st.seen, out := st.out }
        obtain ⟨-, tail, htail⟩ := hcont
        refine ⟨tail, ?_⟩
        split <;> rename_i heq <;> rw [heq] at htail <;> exact htail
      · obtain ⟨tail2, h⟩ := hflat ⟨n, t.getName table, "Union", "", "", t.getSize table⟩
          ("\n" ++ spaces i ++ "\x7d")
        exact ⟨tail2, by rw [← h]; simp [union_t.toJson, String.append_assoc]⟩
      · obtain ⟨tail2, h⟩ := hflat ⟨n, t.getName table, "Array", "", "", t.getSize table⟩
          ("\n" ++ spaces i ++ "\x7d")
        exact ⟨tail2, by rw [← h]; simp [array_t.toJson, String.append_assoc]⟩
      · rename_i constants hkind
        obtain ⟨tail2, h⟩ := hflat ⟨n, t.getName table, "Enum", "", "", t.getSize table⟩ ""
        refine ⟨tail2 ++ (",\n" ++ spaces i ++ "  \"constants\": \x7b\n"
            ++ enumConstantsLoop (spaces i) (constants.getLastD ("", 0)) constants ""
            ++ spaces i ++ "\x7d\x7d"), ?_⟩
        rw [← String.append_assoc, ← h]
        simp only [enum_t.toJson]
        rw [enumConstantsLoop_eq]
        simp [String.append_assoc]
      · obtain ⟨tail2, h⟩ := hflat ⟨n, t.getName table, "Function", "", "", t.getSize table⟩
          ("\n" ++ spaces i ++ "\x7d")
        exact ⟨tail2, by rw [← h]; simp [function_t.toJson, String.append_assoc]⟩
      · rename_i hkind
        rw [hkind] at htrue
        simp at htrue

/-- A call of `makeJson` on a type whose name is not in the seen-set does not return
`false`, and the name is in the seen-set afterwards. -/
theorem makeJson_of_new (table : List TypeEntry) (fuel : Nat) (t : StType) (n : String)
    (i : Nat) (st : JsonState) (hnew : t.getName table ∉ st.seen) :
    (makeJson table (fuel + 1) t n i st).1 ≠ .returned false
    ∧ t.getName table ∈ (makeJson table (fuel + 1) t n i st).2.seen := by
  rw [makeJson]
  simp only [hnew, if_false]
  split
  · simp
  · rename_i fields hkind
    have hcont := struct_toJson_continues (makeJson table fuel) (makeJson_continues table fuel)
      ⟨n, t.getName table, "Struct", "", "", t.getSize table⟩ fields i
      { seen := t.getName table :: st.seen, out := st.out }
    have hmem := hcont.1 (List.mem_cons_self (t.getName table) st.seen)
    split <;> rename_i heq <;> rw [heq] at hmem <;> exact ⟨by simp, hmem⟩
  · simp
  · simp
  · simp
  · simp
  · simp

/-- An exception leaving the loop over the fields was thrown by the classification of one
of the fields. -/
theorem structFieldsLoop_threw
    (call : StType → String → Nat → JsonState → Outcome Bool × JsonState)
    (size indent : Nat) (what : String) (fields : List Field) :
    ∀ (index : Nat) (st : JsonState),
      (structFieldsLoop call size indent index fields st).1 = .threw what →
        ∃ field ∈ fields, ∃ st1 : JsonState,
          (call field.getType field.getName (indent + 3) st1).1 = .threw what := by
  induction fields with
  | nil => intro index st h; simp [structFieldsLoop] at h
  | cons field rest ih =>
    intro index st h
    rw [structFieldsLoop] at h
    rcases hres : call field.getType field.getName (indent + 3) st with ⟨outcome, st1⟩
    rw [hres] at h
    cases outcome with
    | returned created =>
      have hrest : ∃ f ∈ rest, ∃ st2 : JsonState,
          (call f.getType f.getName (indent + 3) st2).1 = .threw what := by
        cases created with
        | true => simp only [if_true] at h; exact ih _ _ h
        | false => simp only [Bool.false_eq_true, if_false] at h; exact ih _ _ h
      obtain ⟨f, hf, st2, h2⟩ := hrest
      exact ⟨f, List.mem_cons_of_mem _ hf, st2, h2⟩
    | threw w =>
      simp only [Outcome.threw.injEq] at h
      exact ⟨field, List.mem_cons_self _ _, st, by rw [hres, h]⟩
    | outOfFuel => simp at h

/-- The loop over the fields continues the state its first recursive call leaves. -/
theorem structFieldsLoop_cons_continues
    (call : StType → String → Nat → JsonState → Outcome Bool × JsonState)
    (hcall : ∀ t n i st, Continues st (call t n i st).2) (size indent index : Nat)
    (field : Field) (rest : List Field) (st : JsonState) :
    Continues (call field.getType field.getName (indent + 3) st).2
      (structFieldsLoop call size indent index (field :: rest) st).2 := by
  rw [structFieldsLoop]
  rcases call field.getType field.getName (indent + 3) st with ⟨outcome, st1⟩
  cases outcome with
  | returned created =>
    cases created with
    | true =>
      simp only [if_true]
      exact (Continues.write2 st1 _ _).trans
        (structFieldsLoop_continues call hcall size indent rest _ _)
    | false =>
      simp only [Bool.false_eq_true, if_false]
      exact structFieldsLoop_continues call hcall size indent rest _ _
  | threw what => exact Continues.refl _
  | outOfFuel => exact Continues.refl _

set_option maxRecDepth 1000000

/-- C12, as stated, fails: the seen-set is a function-local static, so a second top-level
call finds it as the first call left it.  With the one type `int`, the first call (from the
empty seen-set of a fresh run) returns `true`; the second call, for another parameter of
the same type and with an empty output, returns `false` and writes nothing. -/
theorem C12_second_top_level_call_is_suppressed :
    (makeJson [⟨"int", 4, .scalar⟩] 1 (.entry 0) "a" 0 ⟨[], ""⟩).1 = .returned true
    ∧ makeJson [⟨"int", 4, .scalar⟩] 1 (.entry 0) "b" 0
        ⟨(makeJson [⟨"int", 4, .scalar⟩] 1 (.entry 0) "a" 0 ⟨[], ""⟩).2.seen, ""⟩
      = (.returned false, ⟨["int"], ""⟩) := by
  decide

/-- C12, amended: the seen-set is one set for the whole run and is never reset.  A call of
`makeJson` leaves every name seen before in the set; a later top-level call, started from
any state that continues the one an earlier call left, returns `false` and changes nothing
when its type name was seen by then, as it is when the earlier call returned `true` for the
same type name; only a call whose type name is not in the set, as with the empty set of a
fresh run, does not return `false`. -/
theorem C12_seen_set_persists_across_calls (table : List TypeEntry) (fuel later_fuel : Nat)
    (t later_t : StType) (n later_n : String) (i later_i : Nat) (st later : JsonState)
    (hlater : Continues (makeJson table fuel t n i st).2 later) :
    st.seen ⊆ (makeJson table fuel t n i st).2.seen
    ∧ (later_t.getName table ∈ later.seen →
        makeJson table (later_fuel + 1) later_t later_n later_i later = (.returned false, later))
    ∧ ((makeJson table fuel t n i st).1 = .returned true →
        later_t.getName table = t.getName table →
        makeJson table (later_fuel + 1) later_t later_n later_i later = (.returned false, later))
    ∧ (makeJson table (fuel + 1) t n i ⟨[], st.out⟩).1 ≠ .returned false := by
  refine ⟨(makeJson_continues table fuel t n i st).1,
    makeJson_of_seen table later_fuel later_t later_n later_i later, ?_,
    (makeJson_of_new table fuel t n i ⟨[], st.out⟩ (by simp)).1⟩
  intro htrue hname
  apply makeJson_of_seen
  rw [hname]
  apply hlater.1
  cases fuel with
  | zero => simp [makeJson] at htrue
  | succ fuel =>
    exact (makeJson_of_new table fuel t n i st (makeJson_true_writes table _ t n i st htrue).1).2

/-- C12, amended, at two parameters of type `int`: the second call starts from the state
the first call left. -/
theorem C12_seen_set_persists_across_calls_witness :
    makeJson [⟨"int", 4, .scalar⟩] 1 (.entry 0) "b" 0
        (makeJson [⟨"int", 4, .scalar⟩] 1 (.entry 0) "a" 0 ⟨[], ""⟩).2
      = (.returned false, (makeJson [⟨"int", 4, .scalar⟩] 1 (.entry 0) "a" 0 ⟨[], ""⟩).2) :=
  (C12_seen_set_persists_across_calls [⟨"int", 4, .scalar⟩] 1 0 (.entry 0) (.entry 0) "a" "b" 0 0
    ⟨[], ""⟩ (makeJson [⟨"int", 4, .scalar⟩] 1 (.entry 0) "a" 0 ⟨[], ""⟩).2
    (Continues.refl _)).2.2.1 (by decide) rfl

/-- C13: for the parameter type `int*` (one level of pointer indirection over the scalar
`int`) `makeJson` writes a flat descriptor of class "Scalar" under the name `int*`; the
text has no "indirections" and no "underlying_type" member, so no Pointer descriptor is
produced and the indirection count 1 that `unwrap_underlying_type` returns is dropped.  The
same holds for `int**` (count 2), and every pointer type over a scalar gets the descriptor
of `scalar_t::toJson`. -/
theorem C13_pointer_is_classified_as_underlying_kind :
    (unwrap_underlying_type (.pointer "int*" 8 (.entry 0))).2 = 1
    ∧ makeJson [⟨"int", 4, .scalar⟩] 1 (.pointer "int*" 8 (.entry 0)) "p" 0 ⟨[], ""⟩
      = (.returned true, ⟨["int*"],
          "\x7b\n  \"name\":\"p\",\n  \"type\":\"int*\",\n  \"class\":\"Scalar\",\n  \"location\":\"\",\n  \"direction\":\"\",\n  \"size\":\"8\"\n\x7d"⟩)
    ∧ occursIn "indirections".data
        (makeJson [⟨"int", 4, .scalar⟩] 1 (.pointer "int*" 8 (.entry 0)) "p" 0 ⟨[], ""⟩).2.out.data
      = false
    ∧ occursIn "underlying_type".data
        (makeJson [⟨"int", 4, .scalar⟩] 1 (.pointer "int*" 8 (.entry 0)) "p" 0 ⟨[], ""⟩).2.out.data
      = false
    ∧ (unwrap_underlying_type (.pointer "int**" 8 (.pointer "int*" 8 (.entry 0)))).2 = 2
    ∧ makeJson [⟨"int", 4, .scalar⟩] 1 (.pointer "int**" 8 (.pointer "int*" 8 (.entry 0))) "p" 0
        ⟨[], ""⟩
      = (.returned true, ⟨["int**"],
          "\x7b\n  \"name\":\"p\",\n  \"type\":\"int**\",\n  \"class\":\"Scalar\",\n  \"location\":\"\",\n  \"direction\":\"\",\n  \"size\":\"8\"\n\x7d"⟩)
    ∧ (∀ (name pointer_name param_name : String) (size pointer_size indent : Nat)
        (out : String),
        makeJson [⟨name, size, .scalar⟩] 1 (.pointer pointer_name pointer_size (.entry 0))
            param_name indent ⟨[], out⟩
          = (.returned true, ⟨[pointer_name],
              scalar_t.toJson ⟨param_name, pointer_name, "Scalar", "", "", pointer_size⟩ out
                indent⟩)) := by
  refine ⟨by decide, by decide, by decide, by decide, by decide, by decide, ?_⟩
  intro name pointer_name param_name size pointer_size indent out
  simp [makeJson, unwrap_underlying_type, StType.kind, StType.getName, StType.getSize, lookup]

/-- C14, as stated, fails in its second half: the struct `S` with one field of a type that
answers no probe is one of the six kinds, and its classification throws the error of the
field. -/
theorem C14_struct_with_unknown_field_throws :
    (unwrap_underlying_type (.entry 0)).1.kind
        [⟨"S", 8, .struct [⟨"w", .entry 1⟩]⟩, ⟨"weird", 8, .other⟩]
      = .struct [⟨"w", .entry 1⟩]
    ∧ (makeJson [⟨"S", 8, .struct [⟨"w", .entry 1⟩]⟩, ⟨"weird", 8, .other⟩] 2 (.entry 0) "p" 0
        ⟨[], ""⟩).1 = .threw "Unknown type weird" := by
  decide

/-- C14, amended: for a type whose name is not in the seen-set, `makeJson` throws
"Unknown type " followed by the type's name, writing nothing and returning no flag, when
the underlying type is none of the six kinds; it returns `true` when the underlying type
is a scalar, a union, an array, an enum or a function; and when the underlying type is a
struct it throws only an error thrown by the classification of one of its fields. -/
theorem C14_unknown_type_error (table : List TypeEntry) (fuel : Nat) (t : StType)
    (n : String) (i : Nat) (st : JsonState) (hnew : t.getName table ∉ st.seen) :
    ((unwrap_underlying_type t).1.kind table = .other →
        makeJson table (fuel + 1) t n i st
          = (.threw ("Unknown type " ++ t.getName table),
              { st with seen := t.getName table :: st.seen }))
    ∧ ((unwrap_underlying_type t).1.kind table = .scalar
        ∨ (∃ fields, (unwrap_underlying_type t).1.kind table = .union fields)
        ∨ (unwrap_underlying_type t).1.kind table = .array
        ∨ (∃ constants, (unwrap_underlying_type t).1.kind table = .enum constants)
        ∨ (unwrap_underlying_type t).1.kind table = .function →
        (makeJson table (fuel + 1) t n i st).1 = .returned true)
    ∧ (∀ (fields : List Field) (what : String),
        (unwrap_underlying_type t).1.kind table = .struct fields →
        (makeJson table (fuel + 1) t n i st).1 = .threw what →
        ∃ field ∈ fields, ∃ st1 : JsonState,
          (makeJson table fuel field.getType field.getName (i + 3) st1).1 = .threw what) := by
  refine ⟨?_, ?_, ?_⟩
  · intro hkind
    rw [makeJson]
    simp [hnew, hkind]
  · intro hkind
    rw [makeJson]
    simp only [hnew, if_false]
    rcases hkind with h | ⟨fields, h⟩ | h | ⟨constants, h⟩ | h <;> rw [h]
  · intro fields what hkind hthrew
    rw [makeJson] at hthrew
    simp only [hnew, if_false, hkind, struct_t.toJson] at hthrew
    by_cases hfields : fields.length > 0
    · simp only [hfields, if_true] at hthrew
      have hloop := structFieldsLoop_threw (makeJson table fuel) fields.length i what fields 0
        { seen := t.getName table :: st.seen,
          out := detail.toJson ⟨n, t.getName table, "Struct", "", "", t.getSize table⟩
                    (st.out ++ spaces i ++ "\x7b\n") (i + 2)
                  ++ ",\n" ++ spaces (i + 2) ++ "\"fields\": [\n" }
      rcases hres : structFieldsLoop (makeJson table fuel) fields.length i 0 fields
        { seen := t.getName table :: st.seen,
          out := detail.toJson ⟨n, t.getName table, "Struct", "", "", t.getSize table⟩
                    (st.out ++ spaces i ++ "\x7b\n") (i + 2)
                  ++ ",\n" ++ spaces (i + 2) ++ "\"fields\": [\n" } with ⟨outcome, st1⟩
      rw [hres] at hthrew hloop
      cases outcome with
      | returned value => simp at hthrew
      | threw w =>
        simp only [Outcome.threw.injEq] at hthrew
        exact hloop (by rw [hthrew])
      | outOfFuel => simp at hthrew
    · simp [hfields] at hthrew

/-- C14, amended, at a type `weird` that answers no probe: the call throws
"Unknown type weird". -/
theorem C14_unknown_type_error_witness :
    makeJson [⟨"weird", 8, .other⟩] 1 (.entry 0) "p" 0 ⟨[], ""⟩
      = (.threw "Unknown type weird", ⟨["weird"], ""⟩) :=
  (C14_unknown_type_error [⟨"weird", 8, .other⟩] 0 (.entry 0) "p" 0 ⟨[], ""⟩ (by decide)).1
    (by decide)

/-- C16: a call of `makeJson` on a type whose name is in the seen-set returns `false`,
writes nothing, throws nothing and leaves the set as it is; on a type whose name is not in
the set it does not return `false` and the name is in the set afterwards; a call that
returns `true` was made on a name not in the set and has written a descriptor, and from then
on every call on a type of that name returns `false` and writes nothing, so that a name
gets at most one descriptor. -/
theorem C16_at_most_one_descriptor_per_name (table : List TypeEntry) (fuel : Nat)
    (t : StType) (n : String) (i : Nat) (st : JsonState) :
    (t.getName table ∈ st.seen → makeJson table (fuel + 1) t n i st = (.returned false, st))
    ∧ (t.getName table ∉ st.seen →
        (makeJson table (fuel + 1) t n i st).1 ≠ .returned false
        ∧ t.getName table ∈ (makeJson table (fuel + 1) t n i st).2.seen)
    ∧ ((makeJson table (fuel + 1) t n i st).1 = .returned true →
        t.getName table ∉ st.seen
        ∧ (∃ tail : String, (makeJson table (fuel + 1) t n i st).2.out
            = st.out ++ spaces i ++ "\x7b\n" ++ tail)
        ∧ ∀ (later : JsonState) (later_fuel : Nat) (later_t : StType) (later_n : String)
            (later_i : Nat),
            Continues (makeJson table (fuel + 1) t n i st).2 later →
            later_t.getName table = t.getName table →
            makeJson table (later_fuel + 1) later_t later_n later_i later
              = (.returned false, later)) := by
  refine ⟨makeJson_of_seen table fuel t n i st, makeJson_of_new table fuel t n i st, ?_⟩
  intro htrue
  obtain ⟨hnew, hwrites⟩ := makeJson_true_writes table (fuel + 1) t n i st htrue
  refine ⟨hnew, hwrites, ?_⟩
  intro later later_fuel later_t later_n later_i hlater hname
  apply makeJson_of_seen
  rw [hname]
  exact hlater.1 (makeJson_of_new table fuel t n i st hnew).2

/-- C16 at the type `int`: with "int" in the seen-set the call returns `false` and changes
nothing; with the empty seen-set it returns `true` and "int" is seen afterwards. -/
theorem C16_at_most_one_descriptor_per_name_witness :
    makeJson [⟨"int", 4, .scalar⟩] 1 (.entry 0) "a" 0 ⟨["int"], "text"⟩
      = (.returned false, ⟨["int"], "text"⟩)
    ∧ (makeJson [⟨"int", 4, .scalar⟩] 1 (.entry 0) "a" 0 ⟨[], ""⟩).1 = .returned true
    ∧ "int" ∈ (makeJson [⟨"int", 4, .scalar⟩] 1 (.entry 0) "a" 0 ⟨[], ""⟩).2.seen :=
  ⟨(C16_at_most_one_descriptor_per_name [⟨"int", 4, .scalar⟩] 0 (.entry 0) "a" 0
      ⟨["int"], "text"⟩).1 (by decide),
    by decide,
    ((C16_at_most_one_descriptor_per_name [⟨"int", 4, .scalar⟩] 0 (.entry 0) "a" 0
      ⟨[], ""⟩).2.1 (by decide)).2⟩

/-- C18, as stated, fails: for `union U { int i; float f; }` the descriptor written is the
flat object of class "Union", without a "fields" member, and the types of the fields are
not classified (only "U" is in the seen-set afterwards). -/
theorem C18_union_descriptor_has_no_fields :
    makeJson [⟨"U", 4, .union [⟨"i", .entry 1⟩, ⟨"f", .entry 2⟩]⟩, ⟨"int", 4, .scalar⟩,
        ⟨"float", 4, .scalar⟩] 2 (.entry 0) "u" 0 ⟨[], ""⟩
      = (.returned true, ⟨["U"],
          "\x7b\n  \"name\":\"u\",\n  \"type\":\"U\",\n  \"class\":\"Union\",\n  \"location\":\"\",\n  \"direction\":\"\",\n  \"size\":\"4\"\n\x7d"⟩) := by
  decide

/-- C18, amended: classifying a union under a name not yet seen returns `true` and writes
the flat descriptor of `union_t::toJson` (name, type, class "Union", location, direction,
size); the declared fields of the union are not visited: the output and the seen-set are
the same whatever the fields are, and only the name of the union is added to the
seen-set. -/
theorem C18_union_is_flat (table : List TypeEntry) (fuel : Nat) (t : StType) (n : String)
    (i : Nat) (st : JsonState) (fields : List Field)
    (hnew : t.getName table ∉ st.seen)
    (hkind : (unwrap_underlying_type t).1.kind table = .union fields) :
    makeJson table (fuel + 1) t n i st
      = (.returned true,
          { seen := t.getName table :: st.seen,
            out := st.out ++ spaces i ++ "\x7b\n"
              ++ detail.toJson ⟨n, t.getName table, "Union", "", "", t.getSize table⟩ ""
                  (i + 2)
              ++ "\n" ++ spaces i ++ "\x7d" }) := by
  rw [makeJson]
  simp only [hnew, if_false, hkind, union_t.toJson]
  rw [detail_toJson_eq]

/-- C18, amended, at `union U { int i; float f; }`. -/
theorem C18_union_is_flat_witness :
    makeJson [⟨"U", 4, .union [⟨"i", .entry 1⟩, ⟨"f", .entry 2⟩]⟩, ⟨"int", 4, .scalar⟩,
        ⟨"float", 4, .scalar⟩] 1 (.entry 0) "u" 0 ⟨[], ""⟩
      = (.returned true, ⟨["U"],
          "\x7b\n  \"name\":\"u\",\n  \"type\":\"U\",\n  \"class\":\"Union\",\n  \"location\":\"\",\n  \"direction\":\"\",\n  \"size\":\"4\"\n\x7d"⟩) :=
  (C18_union_is_flat [⟨"U", 4, .union [⟨"i", .entry 1⟩, ⟨"f", .entry 2⟩]⟩, ⟨"int", 4, .scalar⟩,
      ⟨"float", 4, .scalar⟩] 0 (.entry 0) "u" 0 ⟨[], ""⟩ [⟨"i", .entry 1⟩, ⟨"f", .entry 2⟩]
    (by decide) (by decide)).trans (by decide)

/-- C19: for `struct Pair { int a; int b; }`, classified from the empty seen-set, the
field `a` is written followed by a comma (it is not the last declared field) and the
field `b` is skipped (`int` is seen by then), so the "fields" array ends in a trailing
comma. -/
theorem C19_trailing_comma_when_last_field_skipped :
    makeJson [⟨"Pair", 8, .struct [⟨"a", .entry 1⟩, ⟨"b", .entry 1⟩]⟩, ⟨"int", 4, .scalar⟩]
        2 (.entry 0) "p" 0 ⟨[], ""⟩
      = (.returned true, ⟨["int", "Pair"],
          "\x7b\n  \"name\":\"p\",\n  \"type\":\"Pair\",\n  \"class\":\"Struct\",\n  \"location\":\"\",\n  \"direction\":\"\",\n  \"size\":\"8\",\n  \"fields\": [\n   \x7b\n     \"name\":\"a\",\n     \"type\":\"int\",\n     \"class\":\"Scalar\",\n     \"location\":\"\",\n     \"direction\":\"\",\n     \"size\":\"4\"\n   \x7d,\n  ]\n\x7d"⟩)
    ∧ occursIn "\x7d,\n  ]".data
        (makeJson [⟨"Pair", 8, .struct [⟨"a", .entry 1⟩, ⟨"b", .entry 1⟩]⟩, ⟨"int", 4, .scalar⟩]
          2 (.entry 0) "p" 0 ⟨[], ""⟩).2.out.data = true := by
  decide

end Smeagle
